import Mathlib

/-!
Shallow embedding of the Vezor API client
(src/internal/client/client.go of vezorio/terraform-provider-vezor).

The HTTP layer is modelled by an explicit server oracle
(a function from requests to results), so every operation returns the
list of requests it issued together with its outcome.  Go maps
(map[string]string and url.Values) are modelled as association lists
with map-update semantics; Go map indexing, which yields the zero value
for a missing key, is the function mapGet below.  JSON bodies are
modelled as a raw text plus its parse result (some JValue when the text
is valid JSON, none otherwise); the unmarshal functions mirror
encoding/json for the concrete struct shapes the client decodes into.
-/

namespace Vezor

/-- ASCII case folding of a single character: A..Z folds to a..z.
Models the ASCII fast path of strings.EqualFold, the only path the
client exercises for key names made of ASCII characters. -/
def foldChar (c : Char) : Char :=
  if 'A' ≤ c && c ≤ 'Z' then Char.ofNat (c.toNat + 32) else c

/-- strings.EqualFold restricted to ASCII folding. -/
def equalFold (s t : String) : Bool :=
  s.data.map foldChar == t.data.map foldChar

/-- strings.TrimRight(s, "/"): remove every trailing slash. -/
def trimRightSlash (s : String) : String :=
  String.mk ((s.data.reverse.dropWhile (fun c => c == '/')).reverse)

/-- Whether the last character of a string is a slash. -/
def lastIsSlash (s : String) : Bool :=
  match s.data.reverse.head? with
  | some c => c == '/'
  | none => false

/-- UTF-8 byte sequence of a character, as natural numbers. -/
def utf8Bytes (c : Char) : List Nat :=
  let n := c.toNat
  if n < 128 then [n]
  else if n < 2048 then [192 + n / 64, 128 + n % 64]
  else if n < 65536 then [224 + n / 4096, 128 + (n / 64) % 64, 128 + n % 64]
  else [240 + n / 262144, 128 + (n / 4096) % 64, 128 + (n / 64) % 64, 128 + n % 64]

/-- Upper-case hexadecimal digit for a value below 16. -/
def hexDigitChar (n : Nat) : Char :=
  if n < 10 then Char.ofNat (48 + n) else Char.ofNat (55 + n)

/-- Percent-encoding of one byte, e.g. 47 becomes %2F. -/
def pctEncode (b : Nat) : String :=
  String.mk ['%', hexDigitChar (b / 16), hexDigitChar (b % 16)]

/-- Alphanumeric ASCII byte (section 2.3 unreserved characters). -/
def isAlnumByte (b : Nat) : Bool :=
  (65 ≤ b && b ≤ 90) || (97 ≤ b && b ≤ 122) || (48 ≤ b && b ≤ 57)

/-- Unreserved mark bytes: - _ . ~ -/
def isMarkByte (b : Nat) : Bool :=
  b == 45 || b == 95 || b == 46 || b == 126

/-- net/url shouldEscape for encodeQueryComponent: everything except
alphanumerics and the marks is escaped. -/
def shouldEscapeQuery (b : Nat) : Bool :=
  !(isAlnumByte b || isMarkByte b)

/-- net/url shouldEscape for encodePathSegment: alphanumerics, marks and
the reserved bytes dollar ampersand plus colon equals at-sign stay
literal; slash semicolon comma question mark and everything else are
escaped. -/
def shouldEscapePathSegment (b : Nat) : Bool :=
  !(isAlnumByte b || isMarkByte b ||
    b == 36 || b == 38 || b == 43 || b == 58 || b == 61 || b == 64)

/-- Escape one byte in query mode (space becomes plus) or path-segment
mode. -/
def escByte (isQuery : Bool) (b : Nat) : String :=
  if isQuery && b == 32 then "+"
  else if (if isQuery then shouldEscapeQuery b else shouldEscapePathSegment b) then
    pctEncode b
  else String.singleton (Char.ofNat b)

/-- Escape a whole string byte by byte in the given mode. -/
def escapeString (isQuery : Bool) (s : String) : String :=
  String.join (s.data.map (fun c => String.join ((utf8Bytes c).map (escByte isQuery))))

/-- url.PathEscape. -/
def pathEscape (s : String) : String := escapeString false s

/-- url.QueryEscape. -/
def queryEscape (s : String) : String := escapeString true s

/-- Association-list model of a string-to-string map (Go
map[string]string, and url.Values with a single value per key). -/
abbrev Values := List (String × String)

/-- Go map indexing m[k]: the stored value, or the zero value "" when
the key is absent. -/
def mapGet (m : Values) (k : String) : String :=
  match m.find? (fun p => p.1 == k) with
  | some p => p.2
  | none => ""

/-- Whether the key is present in the map. -/
def mapHas (m : Values) (k : String) : Bool :=
  (m.find? (fun p => p.1 == k)).isSome

/-- Map update with replace-or-append semantics (url.Values.Set and the
Go assignment m[k] = v). -/
def valuesSet : Values → String → String → Values
  | [], k, v => [(k, v)]
  | p :: rest, k, v => if p.1 == k then (k, v) :: rest else p :: valuesSet rest k v

/-- tagsMatch from client.go: for every required pair the candidate map,
indexed with Go zero-value semantics, must hold an equal value. -/
def tagsMatch (secretTags requiredTags : Values) : Bool :=
  requiredTags.all (fun kv => mapGet secretTags kv.1 == kv.2)

/-- Insert a pair into a key-sorted list, keeping ascending key order. -/
def insertByKey (p : String × String) : Values → Values
  | [] => [p]
  | q :: qs => if p.1 < q.1 then p :: q :: qs else q :: insertByKey p qs

/-- Sort an association list by key, as url.Values.Encode sorts keys. -/
def sortByKey : Values → Values
  | [] => []
  | p :: ps => insertByKey p (sortByKey ps)

/-- url.Values.Encode: keys sorted, each pair query-escaped and joined
with ampersands. -/
def encodeValues (ps : Values) : String :=
  String.intercalate "&"
    ((sortByKey ps).map (fun kv => queryEscape kv.1 ++ "=" ++ queryEscape kv.2))

/-- JSON values with integral numbers (the only numbers the client
decodes: version, total, count). -/
inductive JValue where
  | null
  | bool (b : Bool)
  | num (n : Int)
  | str (s : String)
  | arr (elems : List JValue)
  | obj (fields : List (String × JValue))

/-- An HTTP response body: the raw text and its parse result, some v
exactly when the text is valid JSON denoting v. -/
structure Body where
  text : String
  json : Option JValue

/-- Field lookup with the last binding winning, as encoding/json fills
structs and maps when an object repeats a key. -/
def jLookup (fs : List (String × JValue)) (k : String) : Option JValue :=
  (fs.reverse.find? (fun p => p.1 == k)).map (fun p => p.2)

/-- Decode a string struct field: missing or null gives the zero value,
a non-string value is an unmarshal error. -/
def jStrField (fs : List (String × JValue)) (k : String) : Option String :=
  match jLookup fs k with
  | none => some ""
  | some .null => some ""
  | some (.str s) => some s
  | some _ => none

/-- Decode an int struct field: missing or null gives zero. -/
def jIntField (fs : List (String × JValue)) (k : String) : Option Int :=
  match jLookup fs k with
  | none => some 0
  | some .null => some 0
  | some (.num n) => some n
  | some _ => none

/-- Build a string map from object fields in order, later bindings
overriding earlier ones; any non-string value is an unmarshal error. -/
def mapOfFields (gs : List (String × JValue)) : Option Values :=
  gs.foldlM
    (fun m p =>
      match p.2 with
      | .str v => some (valuesSet m p.1 v)
      | _ => none)
    []

/-- Decode a map[string]string struct field: missing or null gives the
nil map, which indexes as the empty map. -/
def jStrMapField (fs : List (String × JValue)) (k : String) : Option Values :=
  match jLookup fs k with
  | none => some []
  | some .null => some []
  | some (.obj gs) => mapOfFields gs
  | some _ => none

/-- json.Unmarshal of a body into the ErrorResponse struct: succeeds on
a JSON object (or null), yielding the error field with zero-value
semantics; fails on any other body. -/
def unmarshalErrorResponse (b : Body) : Option String :=
  match b.json with
  | some (.obj fs) => jStrField fs "error"
  | some .null => some ""
  | _ => none

/-- Secret struct from client.go. -/
structure Secret where
  id : String
  keyName : String
  value : String
  description : String
  tags : Values
  version : Int
  createdAt : String
  updatedAt : String
deriving DecidableEq

/-- Group struct from client.go. -/
structure Group where
  id : String
  name : String
  description : String
  tags : Values
  createdAt : String
  updatedAt : String
deriving DecidableEq

/-- GroupSecrets struct from client.go. -/
structure GroupSecrets where
  group : String
  tags : Values
  secrets : Values
  count : Int
deriving DecidableEq

/-- SecretsListResponse struct from client.go. -/
structure SecretsListResponse where
  secrets : List Secret
  total : Int
deriving DecidableEq

/-- json.Unmarshal into a Secret: object fields by their json tags,
missing fields left at zero values, null giving the zero struct. -/
def unmarshalSecret : JValue → Option Secret
  | .null => some ⟨"", "", "", "", [], 0, "", ""⟩
  | .obj fs => do
    let i ← jStrField fs "id"
    let kn ← jStrField fs "key_name"
    let v ← jStrField fs "value"
    let d ← jStrField fs "description"
    let tg ← jStrMapField fs "tags"
    let ver ← jIntField fs "version"
    let ca ← jStrField fs "created_at"
    let ua ← jStrField fs "updated_at"
    some ⟨i, kn, v, d, tg, ver, ca, ua⟩
  | _ => none

/-- Decode a list of secrets elementwise. -/
def unmarshalSecretItems : List JValue → Option (List Secret)
  | [] => some []
  | v :: vs => do
    let s ← unmarshalSecret v
    let rest ← unmarshalSecretItems vs
    some (s :: rest)

/-- Decode the secrets array field: missing or null gives the nil
slice. -/
def jSecretsField (fs : List (String × JValue)) (k : String) : Option (List Secret) :=
  match jLookup fs k with
  | none => some []
  | some .null => some []
  | some (.arr vs) => unmarshalSecretItems vs
  | some _ => none

/-- json.Unmarshal into a SecretsListResponse. -/
def unmarshalSecretsList : JValue → Option SecretsListResponse
  | .null => some ⟨[], 0⟩
  | .obj fs => do
    let ss ← jSecretsField fs "secrets"
    let t ← jIntField fs "total"
    some ⟨ss, t⟩
  | _ => none

/-- json.Unmarshal into a Group. -/
def unmarshalGroup : JValue → Option Group
  | .null => some ⟨"", "", "", [], "", ""⟩
  | .obj fs => do
    let i ← jStrField fs "id"
    let n ← jStrField fs "name"
    let d ← jStrField fs "description"
    let tg ← jStrMapField fs "tags"
    let ca ← jStrField fs "created_at"
    let ua ← jStrField fs "updated_at"
    some ⟨i, n, d, tg, ca, ua⟩
  | _ => none

/-- json.Unmarshal into a GroupSecrets. -/
def unmarshalGroupSecrets : JValue → Option GroupSecrets
  | .null => some ⟨"", [], [], 0⟩
  | .obj fs => do
    let g ← jStrField fs "group"
    let tg ← jStrMapField fs "tags"
    let ss ← jStrMapField fs "secrets"
    let c ← jIntField fs "count"
    some ⟨g, tg, ss, c⟩
  | _ => none

/-- The client: base URL and API key.  The fixed 30-second HTTP timeout
of NewClient lives inside the transport, which the server oracle
abstracts; a timeout surfaces as a transport error. -/
structure Client where
  baseURL : String
  apiKey : String
deriving DecidableEq

/-- NewClient from client.go: trailing slashes stripped from the base
URL. -/
def NewClient (baseURL apiKey : String) : Client :=
  ⟨trimRightSlash baseURL, apiKey⟩

/-- One outbound request: method, endpoint path, and query values as
built by the operation (before encoding). -/
structure Request where
  method : String
  endpoint : String
  params : Values
deriving DecidableEq

/-- The URL doRequest builds for a request: baseURL ++ endpoint, with
the encoded query appended when the values are non-empty. -/
def requestURL (c : Client) (r : Request) : String :=
  let base := c.baseURL ++ r.endpoint
  if r.params.isEmpty then base else base ++ "?" ++ encodeValues r.params

/-- Result of one HTTP exchange: transport failure, or a status code
with a body. -/
inductive HttpResult where
  | transportError (msg : String)
  | response (status : Nat) (body : Body)

/-- The server oracle standing for the remote API plus transport. -/
abbrev Server := Request → HttpResult

/-- The error values the client produces, one constructor per
fmt.Errorf site of client.go that a modelled operation can reach. -/
inductive GoError where
  | transport (msg : String)
  | api (code : Nat) (msg : String)
  | decode (what : String)
  | notFound (name : String)
deriving DecidableEq

/-- Status handling of doRequest: status at least 400 yields an API
error whose message is the error field of the body when unmarshalling
succeeds with a non-empty field, and the raw body text otherwise. -/
def handleResponse : HttpResult → Except GoError Body
  | .transportError m => .error (.transport m)
  | .response st b =>
    if 400 ≤ st then
      match unmarshalErrorResponse b with
      | some e => if e == "" then .error (.api st b.text) else .error (.api st e)
      | none => .error (.api st b.text)
    else .ok b

/-- doRequest from client.go: build the request, consult the transport,
and classify the outcome. -/
def doRequest (c : Client) (server : Server) (method endpoint : String)
    (ps : Values) : Request × Except GoError Body :=
  let req : Request := ⟨method, endpoint, ps⟩
  (req, handleResponse (server req))

/-- Decode a successful body with the given unmarshaller, or fail with
the decode error of the calling operation. -/
def decodeBody {α : Type} (f : JValue → Option α) (what : String) :
    Except GoError Body → Except GoError α
  | .error e => .error e
  | .ok b =>
    match b.json with
    | some v =>
      match f v with
      | some a => .ok a
      | none => .error (.decode what)
    | none => .error (.decode what)

/-- GetSecret from client.go: the ID is interpolated into the path with
no escaping; the optional version becomes a query parameter. -/
def GetSecret (c : Client) (server : Server) (secretID : String)
    (version : Option Int) : List Request × Except GoError Secret :=
  let endpoint := "/api/v1/secrets/" ++ secretID
  let ps : Values :=
    match version with
    | some v => valuesSet [] "version" (toString v)
    | none => []
  let (req, r) := doRequest c server "GET" endpoint ps
  ([req], decodeBody unmarshalSecret "secret" r)

/-- The query values ListSecrets builds: every tag set first, then
search when non-empty, then limit when positive, each with map-update
semantics. -/
def listSecretsValues (tags : Values) (search : String) (limit : Int) : Values :=
  let ps := tags.foldl (fun a kv => valuesSet a kv.1 kv.2) []
  let ps := if search == "" then ps else valuesSet ps "search" search
  if limit > 0 then valuesSet ps "limit" (toString limit) else ps

/-- ListSecrets from client.go. -/
def ListSecrets (c : Client) (server : Server) (tags : Values)
    (search : String) (limit : Int) :
    List Request × Except GoError SecretsListResponse :=
  let (req, r) := doRequest c server "GET" "/api/v1/secrets"
    (listSecretsValues tags search limit)
  ([req], decodeBody unmarshalSecretsList "secrets list" r)

/-- The loop body of FindSecret: scan the listed secrets in order and,
at the first entry whose key name folds equal to the name and whose tags
match, return the follow-up GetSecret call. -/
def findSecretLoop (c : Client) (server : Server) (name : String)
    (tags : Values) : List Secret → Option (List Request × Except GoError Secret)
  | [] => none
  | s :: rest =>
    if equalFold s.keyName name then
      if tagsMatch s.tags tags then some (GetSecret c server s.id none)
      else findSecretLoop c server name tags rest
    else findSecretLoop c server name tags rest

/-- FindSecret from client.go: one ListSecrets call with the given
tags, the name as search and limit 100; then the scan, then either the
follow-up fetch or the local not-found error. -/
def FindSecret (c : Client) (server : Server) (name : String)
    (tags : Values) : List Request × Except GoError Secret :=
  let (reqs, r) := ListSecrets c server tags name 100
  match r with
  | .error e => (reqs, .error e)
  | .ok resp =>
    match findSecretLoop c server name tags resp.secrets with
    | some (reqs2, r2) => (reqs ++ reqs2, r2)
    | none => (reqs, .error (.notFound name))

/-- GetGroup from client.go: the group name is path-escaped. -/
def GetGroup (c : Client) (server : Server) (name : String) :
    List Request × Except GoError Group :=
  let endpoint := "/api/v1/groups/" ++ pathEscape name
  let (req, r) := doRequest c server "GET" endpoint []
  ([req], decodeBody unmarshalGroup "group" r)

/-- PullGroupSecrets from client.go: path-escaped name, fixed
format=json query. -/
def PullGroupSecrets (c : Client) (server : Server) (name : String) :
    List Request × Except GoError GroupSecrets :=
  let endpoint := "/api/v1/groups/" ++ pathEscape name ++ "/secrets"
  let (req, r) := doRequest c server "GET" endpoint (valuesSet [] "format" "json")
  ([req], decodeBody unmarshalGroupSecrets "group secrets" r)

/-- The match predicate of the FindSecret scan, as one boolean. -/
def secretMatches (name : String) (tags : Values) (s : Secret) : Bool :=
  equalFold s.keyName name && tagsMatch s.tags tags

/-- Sample list body: one secret named DB with tags env=prod and
extra=x. -/
def listBody1 : Body :=
  ⟨"\x7b\"secrets\":[\x7b\"id\":\"s1\",\"key_name\":\"DB\",\"tags\":\x7b\"env\":\"prod\",\"extra\":\"x\"\x7d\x7d],\"total\":1\x7d",
   some (.obj
     [("secrets", .arr
        [.obj [("id", .str "s1"), ("key_name", .str "DB"),
               ("tags", .obj [("env", .str "prod"), ("extra", .str "x")])]]),
      ("total", .num 1)])⟩

/-- The secret that listBody1 decodes to. -/
def secret1 : Secret :=
  ⟨"s1", "DB", "", "", [("env", "prod"), ("extra", "x")], 0, "", ""⟩

/-- Sample body of the full secret s1, value populated. -/
def secretBody1 : Body :=
  ⟨"\x7b\"id\":\"s1\",\"key_name\":\"DB\",\"value\":\"hunter2\",\"tags\":\x7b\"env\":\"prod\",\"extra\":\"x\"\x7d\x7d",
   some (.obj
     [("id", .str "s1"), ("key_name", .str "DB"), ("value", .str "hunter2"),
      ("tags", .obj [("env", .str "prod"), ("extra", .str "x")])])⟩

/-- Sample server: the list endpoint returns listBody1, everything else
the full secret body. -/
def server1 : Server := fun req =>
  if req.endpoint == "/api/v1/secrets" then .response 200 listBody1
  else .response 200 secretBody1

/-- Sample server whose follow-up fetch fails with a 500. -/
def server2 : Server := fun req =>
  if req.endpoint == "/api/v1/secrets" then .response 200 listBody1
  else .response 500 ⟨"boom", none⟩

/-- Sample body for group secrets of g: two entries A and B. -/
def groupSecretsBody1 : Body :=
  ⟨"\x7b\"group\":\"g\",\"tags\":\x7b\x7d,\"secrets\":\x7b\"A\":\"1\",\"B\":\"2\"\x7d,\"count\":2\x7d",
   some (.obj
     [("group", .str "g"), ("tags", .obj []),
      ("secrets", .obj [("A", .str "1"), ("B", .str "2")]),
      ("count", .num 2)])⟩

/-- Sample server returning groupSecretsBody1 for every request. -/
def serverG : Server := fun _ => .response 200 groupSecretsBody1

theorem mapGet_of_not_has (C : Values) (k : String) (h : mapHas C k = false) :
    mapGet C k = "" := by
  unfold mapHas at h
  unfold mapGet
  cases hf : C.find? (fun p => p.1 == k) with
  | none => rfl
  | some p => rw [hf] at h; simp at h

/-- C1 counterexample: the claim says tagsMatch must be false when a key
of the required map is missing from the candidate, but with a required
map sending k to the empty string and an empty candidate map the code
returns true. -/
theorem tagsMatch_claim_counterexample :
    tagsMatch ([] : Values) [("k", "")] = true ∧ mapHas ([] : Values) "k" = false := by
  constructor <;> rfl

/-- C1 (amended): tagsMatch C T is true iff every pair of T is either
present in C with an equal value, or absent from C with the empty string
as its required value; extra keys of C never matter. -/
theorem tagsMatch_characterization (C T : Values) :
    tagsMatch C T = true ↔
      ∀ kv ∈ T, (mapHas C kv.1 = true ∧ mapGet C kv.1 = kv.2) ∨
        (mapHas C kv.1 = false ∧ kv.2 = "") := by
  unfold tagsMatch
  rw [List.all_eq_true]
  constructor
  · intro h kv hkv
    have hv : mapGet C kv.1 = kv.2 := by
      have := h kv hkv
      simpa using this
    cases hh : mapHas C kv.1 with
    | true => exact Or.inl ⟨rfl, hv⟩
    | false => exact Or.inr ⟨rfl, by rw [← hv, mapGet_of_not_has C kv.1 hh]⟩
  · intro h kv hkv
    rcases h kv hkv with ⟨_, hv⟩ | ⟨hh, hv⟩
    · simpa using hv
    · simp [mapGet_of_not_has C kv.1 hh, hv]

theorem tagsMatch_characterization_witness :
    tagsMatch [("env", "prod"), ("team", "db")] [("env", "prod")] = true :=
  (tagsMatch_characterization [("env", "prod"), ("team", "db")] [("env", "prod")]).mpr
    (by decide)

/-- C8: a key required with the empty-string value is satisfied by a
candidate that lacks the key entirely; the missing key reads as the
empty string, so prepending such a requirement never changes the
verdict, and alone it always matches. -/
theorem tagsMatch_missing_key_as_empty (C T : Values) (k : String)
    (h : mapHas C k = false) :
    mapGet C k = "" ∧ tagsMatch C ((k, "") :: T) = tagsMatch C T ∧
      tagsMatch C [(k, "")] = true := by
  have hg := mapGet_of_not_has C k h
  refine ⟨hg, ?_, ?_⟩
  · unfold tagsMatch
    simp [hg]
  · unfold tagsMatch
    simp [hg]

theorem tagsMatch_missing_key_as_empty_witness :
    mapGet [("a", "1")] "k" = "" ∧
      tagsMatch [("a", "1")] [("k", ""), ("a", "1")] =
        tagsMatch [("a", "1")] [("a", "1")] ∧
      tagsMatch [("a", "1")] [("k", "")] = true :=
  tagsMatch_missing_key_as_empty [("a", "1")] [("a", "1")] "k" (by decide)

/-- C3 counterexample: a 400 response whose body is valid JSON with the
error field present but empty; the claim says the message must equal the
field value (the empty string), but the code falls back to the raw body
text, which is non-empty. -/
theorem doRequest_error_field_empty_counterexample :
    (doRequest ⟨"https://h", "k"⟩
        (fun _ => .response 400
          ⟨"\x7b\"error\":\"\"\x7d", some (.obj [("error", .str "")])⟩)
        "GET" "/x" []).2 =
      .error (.api 400 "\x7b\"error\":\"\"\x7d") ∧
    jLookup [("error", JValue.str "")] "error" = some (.str "") ∧
    "\x7b\"error\":\"\"\x7d" ≠ ("" : String) := by
  refine ⟨rfl, rfl, by decide⟩

/-- C3 (amended): on any response with status at least 400 the operation
fails with an API error carrying that status; the message is the error
field of the body when the body is a JSON object whose error field is a
non-empty string, and the raw body text otherwise. -/
theorem doRequest_api_error_message (c : Client) (server : Server)
    (method endpoint : String) (ps : Values) (st : Nat) (b : Body)
    (hresp : server ⟨method, endpoint, ps⟩ = .response st b) (hst : 400 ≤ st) :
    (∀ fs e, b.json = some (.obj fs) → jLookup fs "error" = some (.str e) →
        e ≠ "" → (doRequest c server method endpoint ps).2 = .error (.api st e)) ∧
    ((¬ ∃ fs e, b.json = some (.obj fs) ∧ jLookup fs "error" = some (.str e) ∧
        e ≠ "") →
      (doRequest c server method endpoint ps).2 = .error (.api st b.text)) := by
  have hdr : (doRequest c server method endpoint ps).2 =
      handleResponse (server ⟨method, endpoint, ps⟩) := rfl
  rw [hdr, hresp]
  simp only [handleResponse]
  rw [if_pos hst]
  constructor
  · intro fs e hjson hfield hne
    simp [unmarshalErrorResponse, hjson, jStrField, hfield, hne]
  · intro hno
    cases hjson : b.json with
    | none => simp [unmarshalErrorResponse, hjson]
    | some v =>
      cases v with
      | null => simp [unmarshalErrorResponse, hjson]
      | bool x => simp [unmarshalErrorResponse, hjson]
      | num x => simp [unmarshalErrorResponse, hjson]
      | str x => simp [unmarshalErrorResponse, hjson]
      | arr x => simp [unmarshalErrorResponse, hjson]
      | obj fs =>
        cases hfield : jLookup fs "error" with
        | none => simp [unmarshalErrorResponse, hjson, jStrField, hfield]
        | some w =>
          cases w with
          | null => simp [unmarshalErrorResponse, hjson, jStrField, hfield]
          | bool x => simp [unmarshalErrorResponse, hjson, jStrField, hfield]
          | num x => simp [unmarshalErrorResponse, hjson, jStrField, hfield]
          | str x =>
            by_cases hx : x = ""
            · simp [unmarshalErrorResponse, hjson, jStrField, hfield, hx]
            · exact absurd ⟨fs, x, hjson, hfield, hx⟩ hno
          | arr x => simp [unmarshalErrorResponse, hjson, jStrField, hfield]
          | obj x => simp [unmarshalErrorResponse, hjson, jStrField, hfield]

theorem doRequest_api_error_message_witness :
    (doRequest ⟨"https://h", "k"⟩
        (fun _ => .response 404
          ⟨"\x7b\"error\":\"not found\"\x7d", some (.obj [("error", .str "not found")])⟩)
        "GET" "/x" []).2 = .error (.api 404 "not found") ∧
    (doRequest ⟨"https://h", "k"⟩
        (fun _ => .response 500 ⟨"boom not json", none⟩)
        "GET" "/x" []).2 = .error (.api 500 "boom not json") := by
  constructor
  · exact (doRequest_api_error_message ⟨"https://h", "k"⟩ _ "GET" "/x" [] 404
      ⟨"\x7b\"error\":\"not found\"\x7d", some (.obj [("error", .str "not found")])⟩
      rfl (by decide)).1 [("error", .str "not found")] "not found" rfl rfl (by decide)
  · refine (doRequest_api_error_message ⟨"https://h", "k"⟩ _ "GET" "/x" [] 500
      ⟨"boom not json", none⟩ rfl (by decide)).2 ?_
    rintro ⟨fs, e, hj, -, -⟩
    exact Option.noConfusion hj

/-- Helper: dropping leading slashes leaves a list whose head is not a
slash. -/
theorem head_dropWhile_slash (l : List Char) :
    (match (l.dropWhile (fun c => c == '/')).head? with
      | some c => c == '/'
      | none => false) = false := by
  induction l with
  | nil => rfl
  | cons a t ih =>
    rw [List.dropWhile_cons]
    by_cases h : a = '/'
    · simpa [h] using ih
    · simp [h]

/-- C6: NewClient strips every trailing slash from the base URL, and a
client built from a base URL with a trailing slash issues GetGroup of x
against the base joined with /api/v1/groups/x, with no doubled slash. -/
theorem NewClient_trims_trailing_slashes :
    (∀ baseURL apiKey : String,
      lastIsSlash (NewClient baseURL apiKey).baseURL = false) ∧
    (∀ (apiKey : String) (server : Server),
      (GetGroup (NewClient "https://api.example.com/" apiKey) server "x").1.map
          (requestURL (NewClient "https://api.example.com/" apiKey)) =
        ["https://api.example.com/api/v1/groups/x"]) := by
  constructor
  · intro baseURL apiKey
    unfold NewClient trimRightSlash lastIsSlash
    simpa using head_dropWhile_slash baseURL.data.reverse
  · intro apiKey server
    rfl

/-- C10: GetSecret splices the raw secret ID into the path with no
escaping, while GetGroup and PullGroupSecrets path-escape the group
name; for an ID containing a slash the raw path differs from the
escaped one. -/
theorem GetSecret_raw_id_path :
    (∀ (c : Client) (server : Server) (id : String) (ver : Option Int),
      (GetSecret c server id ver).1.map Request.endpoint =
        ["/api/v1/secrets/" ++ id]) ∧
    (∀ (c : Client) (server : Server) (n : String),
      (GetGroup c server n).1.map Request.endpoint =
        ["/api/v1/groups/" ++ pathEscape n]) ∧
    (∀ (c : Client) (server : Server) (n : String),
      (PullGroupSecrets c server n).1.map Request.endpoint =
        ["/api/v1/groups/" ++ pathEscape n ++ "/secrets"]) ∧
    ("/api/v1/secrets/" ++ "a/b" ≠ "/api/v1/secrets/" ++ pathEscape "a/b") := by
  refine ⟨fun c server id ver => rfl, fun c server n => rfl,
    fun c server n => rfl, by decide⟩

theorem valuesSet_of_not_mem (a : Values) (k v : String)
    (h : k ∉ a.map Prod.fst) : valuesSet a k v = a ++ [(k, v)] := by
  induction a with
  | nil => rfl
  | cons p rest ih =>
    simp only [List.map_cons, List.mem_cons] at h
    push_neg at h
    unfold valuesSet
    have hp : (p.1 == k) = false := by simp [Ne.symm h.1]
    rw [hp]
    simp [ih h.2]

theorem foldl_valuesSet_eq (tags acc : Values)
    (hdisj : ∀ kv ∈ tags, kv.1 ∉ acc.map Prod.fst)
    (hnodup : (tags.map Prod.fst).Nodup) :
    tags.foldl (fun a kv => valuesSet a kv.1 kv.2) acc = acc ++ tags := by
  induction tags generalizing acc with
  | nil => simp
  | cons kv rest ih =>
    rw [List.foldl_cons]
    rw [valuesSet_of_not_mem acc kv.1 kv.2 (hdisj kv (List.mem_cons_self kv rest))]
    rw [List.map_cons, List.nodup_cons] at hnodup
    have hd2 : ∀ p ∈ rest, p.1 ∉ (acc ++ [(kv.1, kv.2)]).map Prod.fst := by
      intro p hp
      rw [List.map_append]
      simp only [List.mem_append]
      push_neg
      refine ⟨hdisj p (List.mem_cons_of_mem kv hp), ?_⟩
      simp only [List.map_cons, List.map_nil, List.mem_singleton]
      intro hcontra
      exact hnodup.1 (hcontra ▸ List.mem_map_of_mem Prod.fst hp)
    rw [ih (acc ++ [(kv.1, kv.2)]) hd2 hnodup.2]
    simp

/-- C5 counterexample: a tag literally named search is overwritten by
the search parameter, so it is not included in the issued query even
though the claim requires every tag to appear. -/
theorem ListSecrets_tag_override_counterexample :
    listSecretsValues [("search", "a")] "b" 0 = [("search", "b")] ∧
    ("search", "a") ∉ listSecretsValues [("search", "a")] "b" 0 := by
  constructor
  · rfl
  · decide

/-- C5 (amended): for tag maps (no duplicate keys) none of whose keys is
search or limit, ListSecrets issues GET /api/v1/secrets whose query
values are exactly the tags, followed by search when non-empty and limit
when positive; a tag key equal to search or limit would instead be
overwritten by url.Values.Set. -/
theorem ListSecrets_request_params (c : Client) (server : Server)
    (tags : Values) (search : String) (limit : Int)
    (hnodup : (tags.map Prod.fst).Nodup)
    (hres : ∀ kv ∈ tags, kv.1 ≠ "search" ∧ kv.1 ≠ "limit") :
    (ListSecrets c server tags search limit).1 =
      [⟨"GET", "/api/v1/secrets",
        tags ++ (if search = "" then [] else [("search", search)]) ++
          (if limit > 0 then [("limit", toString limit)] else [])⟩] := by
  have h1 : (ListSecrets c server tags search limit).1 =
      [⟨"GET", "/api/v1/secrets", listSecretsValues tags search limit⟩] := rfl
  rw [h1]
  have hfold : tags.foldl (fun a kv => valuesSet a kv.1 kv.2) [] = tags := by
    have := foldl_valuesSet_eq tags [] (by simp) hnodup
    simpa using this
  have hsearch : "search" ∉ tags.map Prod.fst := by
    intro hmem
    rcases List.mem_map.mp hmem with ⟨kv, hkv, hfst⟩
    exact (hres kv hkv).1 hfst
  have hlimit : "limit" ∉ tags.map Prod.fst := by
    intro hmem
    rcases List.mem_map.mp hmem with ⟨kv, hkv, hfst⟩
    exact (hres kv hkv).2 hfst
  simp only [listSecretsValues, hfold]
  by_cases hs : search = ""
  · have hs' : (search == "") = true := by simp [hs]
    rw [if_pos hs', if_pos hs]
    by_cases hl : limit > 0
    · rw [if_pos hl, if_pos hl, valuesSet_of_not_mem tags "limit" (toString limit) hlimit]
      simp
    · rw [if_neg hl, if_neg hl]
      simp
  · have hs' : ¬ ((search == "") = true) := by simp [hs]
    rw [if_neg hs', if_neg hs, valuesSet_of_not_mem tags "search" search hsearch]
    by_cases hl : limit > 0
    · rw [if_pos hl, if_pos hl]
      rw [valuesSet_of_not_mem (tags ++ [("search", search)]) "limit" (toString limit)
        (by
          rw [List.map_append]
          simp only [List.mem_append]
          push_neg
          exact ⟨hlimit, by simp⟩)]
    · rw [if_neg hl, if_neg hl]
      simp

theorem ListSecrets_request_params_witness :
    (ListSecrets ⟨"https://h", "k"⟩ (fun _ => .transportError "x")
        [("env", "prod")] "db" 100).1 =
      [⟨"GET", "/api/v1/secrets",
        [("env", "prod"), ("search", "db"), ("limit", "100")]⟩] := by
  have h := ListSecrets_request_params ⟨"https://h", "k"⟩ (fun _ => .transportError "x")
      [("env", "prod")] "db" 100 (by decide) (by decide)
  simpa using h

/-- Structural unfolding of FindSecret around the opaque server
outcome. -/
theorem FindSecret_eq (c : Client) (server : Server) (name : String)
    (tags : Values) :
    FindSecret c server name tags =
      (match decodeBody unmarshalSecretsList "secrets list"
          (handleResponse
            (server ⟨"GET", "/api/v1/secrets", listSecretsValues tags name 100⟩)) with
       | .error e =>
         ([⟨"GET", "/api/v1/secrets", listSecretsValues tags name 100⟩], .error e)
       | .ok resp =>
         match findSecretLoop c server name tags resp.secrets with
         | some (reqs2, r2) =>
           (⟨"GET", "/api/v1/secrets", listSecretsValues tags name 100⟩ :: reqs2, r2)
         | none =>
           ([⟨"GET", "/api/v1/secrets", listSecretsValues tags name 100⟩],
            .error (.notFound name))) := rfl

/-- The FindSecret scan equals the first list entry satisfying the
combined name-and-tags predicate, mapped to its follow-up fetch. -/
theorem findSecretLoop_eq_find (c : Client) (server : Server)
    (name : String) (tags : Values) (l : List Secret) :
    findSecretLoop c server name tags l =
      (l.find? (secretMatches name tags)).map
        (fun s => GetSecret c server s.id none) := by
  induction l with
  | nil => rfl
  | cons s rest ih =>
    by_cases h1 : equalFold s.keyName name = true
    · by_cases h2 : tagsMatch s.tags tags = true
      · simp [findSecretLoop, List.find?_cons, secretMatches, h1, h2]
      · simp only [Bool.not_eq_true] at h2
        simp [findSecretLoop, List.find?_cons, secretMatches, h1, h2, ih]
    · simp only [Bool.not_eq_true] at h1
      simp [findSecretLoop, List.find?_cons, secretMatches, h1, ih]

/-- The endpoint of a follow-up secret fetch is never the list
endpoint. -/
theorem getSecret_endpoint_ne (id : String) :
    (("/api/v1/secrets/" ++ id) == "/api/v1/secrets") = false := by
  rw [beq_eq_false_iff_ne]
  intro h
  have hl := congrArg String.length h
  rw [String.length_append] at hl
  have h16 : ("/api/v1/secrets/" : String).length = 16 := rfl
  have h15 : ("/api/v1/secrets" : String).length = 15 := rfl
  rw [h16, h15] at hl
  omega

/-- C4: FindSecret issues exactly one request against the list endpoint,
and that request comes first, built from the given tags with the name as
search and limit 100; this holds whatever the server answers. -/
theorem FindSecret_single_list_call (c : Client) (server : Server)
    (name : String) (tags : Values) :
    (FindSecret c server name tags).1.head? =
      some ⟨"GET", "/api/v1/secrets", listSecretsValues tags name 100⟩ ∧
    (FindSecret c server name tags).1.countP
      (fun r => r.endpoint == "/api/v1/secrets") = 1 := by
  rw [FindSecret_eq]
  cases hD : decodeBody unmarshalSecretsList "secrets list"
      (handleResponse
        (server ⟨"GET", "/api/v1/secrets", listSecretsValues tags name 100⟩)) with
  | error e => simp [List.countP_cons]
  | ok resp =>
    cases hF : resp.secrets.find? (secretMatches name tags) with
    | none =>
      have hloop : findSecretLoop c server name tags resp.secrets = none := by
        rw [findSecretLoop_eq_find, hF]
        rfl
      simp [hloop, List.countP_cons]
    | some s =>
      have hloop : findSecretLoop c server name tags resp.secrets =
          some (GetSecret c server s.id none) := by
        rw [findSecretLoop_eq_find, hF]
        rfl
      have hG : (GetSecret c server s.id none).1 =
          [⟨"GET", "/api/v1/secrets/" ++ s.id, []⟩] := rfl
      simp [hloop, hG, List.countP_cons, getSecret_endpoint_ne s.id]

/-- C2: given the page of secrets the list call returns, FindSecret
resolves to the follow-up fetch of the first entry, in server order,
whose key name folds equal to the requested name and whose tags match
the required tags; with no such entry it fails locally with the
not-found error after the single list request, issuing no follow-up
fetch. -/
theorem FindSecret_first_match (c : Client) (server : Server)
    (name : String) (tags : Values) (b : Body) (v : JValue)
    (resp : SecretsListResponse)
    (hs : server ⟨"GET", "/api/v1/secrets", listSecretsValues tags name 100⟩ =
      .response 200 b)
    (hb : b.json = some v) (hd : unmarshalSecretsList v = some resp) :
    (∀ s, resp.secrets.find? (secretMatches name tags) = some s →
      FindSecret c server name tags =
        (⟨"GET", "/api/v1/secrets", listSecretsValues tags name 100⟩ ::
            (GetSecret c server s.id none).1,
          (GetSecret c server s.id none).2)) ∧
    (resp.secrets.find? (secretMatches name tags) = none →
      FindSecret c server name tags =
        ([⟨"GET", "/api/v1/secrets", listSecretsValues tags name 100⟩],
          .error (.notFound name))) := by
  have hhr : handleResponse (.response 200 b) = .ok b := by
    have h400 : ¬ (400 ≤ 200) := by omega
    simp [handleResponse, h400]
  have hFS : FindSecret c server name tags =
      (match findSecretLoop c server name tags resp.secrets with
       | some (reqs2, r2) =>
         (⟨"GET", "/api/v1/secrets", listSecretsValues tags name 100⟩ :: reqs2, r2)
       | none =>
         ([⟨"GET", "/api/v1/secrets", listSecretsValues tags name 100⟩],
          .error (.notFound name))) := by
    rw [FindSecret_eq, hs, hhr]
    simp [decodeBody, hb, hd]
  constructor
  · intro s hfind
    rw [hFS, findSecretLoop_eq_find, hfind]
    rfl
  · intro hfind
    rw [hFS, findSecretLoop_eq_find, hfind]
    rfl

theorem FindSecret_first_match_witness :
    FindSecret ⟨"https://h", "k"⟩ server1 "db" [("env", "prod")] =
      ([⟨"GET", "/api/v1/secrets", listSecretsValues [("env", "prod")] "db" 100⟩,
        ⟨"GET", "/api/v1/secrets/s1", []⟩],
       .ok ⟨"s1", "DB", "hunter2", "", [("env", "prod"), ("extra", "x")], 0, "", ""⟩) := by
  have h := (FindSecret_first_match ⟨"https://h", "k"⟩ server1 "db" [("env", "prod")]
      listBody1
      (.obj
        [("secrets", .arr
           [.obj [("id", .str "s1"), ("key_name", .str "DB"),
                  ("tags", .obj [("env", .str "prod"), ("extra", .str "x")])]]),
         ("total", .num 1)])
      ⟨[secret1], 1⟩ rfl rfl rfl).1 secret1 rfl
  exact h

/-- handleResponse only ever fails with a transport or API error. -/
theorem handleResponse_error_shape (r : HttpResult) (e : GoError)
    (h : handleResponse r = .error e) :
    (∃ m, e = .transport m) ∨ (∃ st m, e = .api st m) := by
  cases r with
  | transportError m =>
    simp only [handleResponse] at h
    injection h with h2
    exact Or.inl ⟨m, h2.symm⟩
  | response st b =>
    simp only [handleResponse] at h
    by_cases hst : 400 ≤ st
    · rw [if_pos hst] at h
      cases hu : unmarshalErrorResponse b with
      | none =>
        rw [hu] at h
        have h2 : (Except.error (GoError.api st b.text) : Except GoError Body) =
            Except.error e := h
        injection h2 with h3
        exact Or.inr ⟨st, b.text, h3.symm⟩
      | some m =>
        rw [hu] at h
        have h2 : (if (m == "") = true
            then (Except.error (GoError.api st b.text) : Except GoError Body)
            else Except.error (GoError.api st m)) = Except.error e := h
        by_cases hm : (m == "") = true
        · rw [if_pos hm] at h2
          injection h2 with h3
          exact Or.inr ⟨st, b.text, h3.symm⟩
        · rw [if_neg hm] at h2
          injection h2 with h3
          exact Or.inr ⟨st, m, h3.symm⟩
    · rw [if_neg hst] at h
      exact Except.noConfusion h

/-- decodeBody either passes an upstream error through or fails with the
decode error of the calling operation. -/
theorem decodeBody_error_shape {α : Type} (f : JValue → Option α) (what : String)
    (r : Except GoError Body) (e : GoError) (h : decodeBody f what r = .error e) :
    r = .error e ∨ e = .decode what := by
  cases r with
  | error e2 =>
    simp only [decodeBody] at h
    injection h with h2
    exact Or.inl (by rw [h2])
  | ok b =>
    right
    simp only [decodeBody] at h
    cases hj : b.json with
    | none =>
      rw [hj] at h
      injection h with h2
      exact h2.symm
    | some v =>
      rw [hj] at h
      have h1 : (match f v with
          | some a => (Except.ok a : Except GoError α)
          | none => Except.error (GoError.decode what)) = Except.error e := h
      cases hu : f v with
      | none =>
        rw [hu] at h1
        have h2 : (Except.error (GoError.decode what) : Except GoError α) =
            Except.error e := h1
        injection h2 with h3
        exact h3.symm
      | some a =>
        rw [hu] at h1
        have h2 : (Except.ok a : Except GoError α) = Except.error e := h1
        exact Except.noConfusion h2

/-- GetSecret can fail with transport, API or decode errors, never with
the local not-found error of FindSecret. -/
theorem GetSecret_ne_notFound (c : Client) (server : Server) (id : String)
    (ver : Option Int) (n : String) :
    (GetSecret c server id ver).2 ≠ .error (.notFound n) := by
  intro hcontra
  cases ver with
  | none =>
    have h2 : decodeBody unmarshalSecret "secret"
        (handleResponse (server ⟨"GET", "/api/v1/secrets/" ++ id, []⟩)) =
        .error (.notFound n) := hcontra
    rcases decodeBody_error_shape _ _ _ _ h2 with hre | hdec
    · rcases handleResponse_error_shape _ _ hre with ⟨m, hm⟩ | ⟨st, m, hm⟩ <;>
        exact GoError.noConfusion hm
    · exact GoError.noConfusion hdec
  | some v =>
    have h2 : decodeBody unmarshalSecret "secret"
        (handleResponse (server ⟨"GET", "/api/v1/secrets/" ++ id,
          valuesSet [] "version" (toString v)⟩)) =
        .error (.notFound n) := hcontra
    rcases decodeBody_error_shape _ _ _ _ h2 with hre | hdec
    · rcases handleResponse_error_shape _ _ hre with ⟨m, hm⟩ | ⟨st, m, hm⟩ <;>
        exact GoError.noConfusion hm
    · exact GoError.noConfusion hdec

/-- C9: when the scan finds a matching entry and the follow-up fetch of
its ID fails, FindSecret propagates that error unchanged; and a
not-found failure can only arise when no list entry matches, never from
the follow-up fetch. -/
theorem FindSecret_propagates_fetch_error (c : Client) (server : Server)
    (name : String) (tags : Values) (b : Body) (v : JValue)
    (resp : SecretsListResponse)
    (hs : server ⟨"GET", "/api/v1/secrets", listSecretsValues tags name 100⟩ =
      .response 200 b)
    (hb : b.json = some v) (hd : unmarshalSecretsList v = some resp) :
    (∀ s e, resp.secrets.find? (secretMatches name tags) = some s →
      (GetSecret c server s.id none).2 = .error e →
      (FindSecret c server name tags).2 = .error e) ∧
    ((FindSecret c server name tags).2 = .error (.notFound name) →
      resp.secrets.find? (secretMatches name tags) = none) := by
  have hmain := FindSecret_first_match c server name tags b v resp hs hb hd
  constructor
  · intro s e hfind hget
    rw [hmain.1 s hfind]
    exact hget
  · intro hnf
    cases hfind : resp.secrets.find? (secretMatches name tags) with
    | none => rfl
    | some s =>
      rw [hmain.1 s hfind] at hnf
      exact absurd hnf (GetSecret_ne_notFound c server s.id none name)

theorem FindSecret_propagates_fetch_error_witness :
    (FindSecret ⟨"https://h", "k"⟩ server2 "db" [("env", "prod")]).2 =
      .error (.api 500 "boom") := by
  have h := (FindSecret_propagates_fetch_error ⟨"https://h", "k"⟩ server2 "db"
      [("env", "prod")] listBody1
      (.obj
        [("secrets", .arr
           [.obj [("id", .str "s1"), ("key_name", .str "DB"),
                  ("tags", .obj [("env", .str "prod"), ("extra", .str "x")])]]),
         ("total", .num 1)])
      ⟨[secret1], 1⟩ rfl rfl rfl).1 secret1 (.api 500 "boom") rfl rfl
  exact h

/-- C7: PullGroupSecrets issues GET against the path built from the
escaped group name with the fixed format=json query, and decodes the
documented sample body into secrets A=1, B=2 with count 2. -/
theorem PullGroupSecrets_spec :
    (∀ (c : Client) (server : Server) (name : String),
      (PullGroupSecrets c server name).1 =
        [⟨"GET", "/api/v1/groups/" ++ pathEscape name ++ "/secrets",
          [("format", "json")]⟩]) ∧
    (PullGroupSecrets ⟨"https://h", "k"⟩ serverG "g").2 =
      .ok ⟨"g", [], [("A", "1"), ("B", "2")], 2⟩ := by
  constructor
  · intro c server name
    rfl
  · rfl

end Vezor
